import Mathlib

/-!
Verification of `zcount.c` (a zero-byte counting utility) against its
design document.  The C program is shallowly embedded: byte streams are
`List Nat` (each element a byte value `0 ≤ b ≤ 255`), the `struct
arguments` record is `Arguments`, and the argp-driven control flow is an
explicit interpreter `runProgram` over parsed option tokens and file
arguments.  Output is modelled as a list of (channel, line) pairs.
-/

namespace Zcount

/-- Maximum value of a 64-bit `unsigned long int`, as on the target platform. -/
def ULONG_MAX : Nat := 2 ^ 64 - 1

/-- Maximum value of a 32-bit signed `int`. -/
def INT_MAX : Nat := 2 ^ 31 - 1

/-- Output channels of the process. -/
inductive Chan where
  | out
  | err
deriving DecidableEq

/-- Loop of `countZB`: the C loop
`while ((c = getc(fp)) != EOF && zeros < upper && zeros < ULONG_MAX)`.
`getc` is called first on every condition evaluation, so one byte is
consumed even on the iteration that fails the `zeros < upper` test.
Because the result of `getc` is stored into a signed `char c`, a byte of
value 255 is indistinguishable from `EOF` and also ends the loop.
Returns `(zeros, number of bytes consumed from the stream)`. -/
def countZBrun : List Nat → Nat → Nat → Nat × Nat
  | [], _, zeros => (zeros, 0)
  | b :: rest, upper, zeros =>
      if b = 255 then (zeros, 1)
      else if zeros < upper ∧ zeros < ULONG_MAX then
        ((countZBrun rest upper (if b = 0 then zeros + 1 else zeros)).1,
         (countZBrun rest upper (if b = 0 then zeros + 1 else zeros)).2 + 1)
      else (zeros, 1)

/-- `countZB(fp, upper)`: counts zero-bytes in the stream, with `upper = 0`
meaning no limit (internally replaced by `ULONG_MAX`).  Returns the count
together with the number of bytes consumed from the stream. -/
def countZB (s : List Nat) (upper : Nat) : Nat × Nat :=
  countZBrun s (if upper = 0 then ULONG_MAX else upper) 0

/-- Length of the shortest prefix of the stream that contains `k`
zero-bytes (the whole stream length if it has fewer than `k` zeros). -/
def prefixToKZeros : Nat → List Nat → Nat
  | _, [] => 0
  | k, b :: rest =>
      if k = 0 then 0 else 1 + prefixToKZeros (if b = 0 then k - 1 else k) rest

/-- The `struct arguments` record shared between `parse_opt` and `main`. -/
structure Arguments where
  verbosity : Nat
  upper : Nat
  lower : Nat
  retcode : Nat
deriving DecidableEq

/-- Default values installed at `ARGP_KEY_INIT`. -/
def argInit : Arguments :=
  { verbosity := 0, upper := 0, lower := 1, retcode := 0 }

/-- The "small sanity check" done before each classification:
`if (lower > upper && upper != 0) lower = upper;`. -/
def clampLower (a : Arguments) : Arguments :=
  if a.upper < a.lower ∧ a.upper ≠ 0 then { a with lower := a.upper } else a

/-- Update of the suspicious-file counter:
`if (zeros && retcode < INT_MAX) retcode++;`. -/
def bumpRetcode (zeros : Nat) (a : Arguments) : Arguments :=
  if zeros ≠ 0 ∧ a.retcode < INT_MAX then { a with retcode := a.retcode + 1 } else a

/-- The "seems corrupted" diagnostic line (file or stdin wording). -/
def corruptMsg (label : String) (isStdin : Bool) (zeros : Nat) : String :=
  if isStdin then
    "data in stdin seems corrupted, " ++ toString zeros ++ " zero-bytes counted\n"
  else
    label ++ ": seems corrupted, " ++ toString zeros ++ " zero-bytes counted\n"

/-- The non-corrupted report line (file or stdin wording). -/
def okMsg (label : String) (isStdin : Bool) (zeros : Nat) : String :=
  if isStdin then
    toString zeros ++ " zero-bytes in stdin counted\n"
  else
    label ++ ": " ++ toString zeros ++ " zero-bytes counted\n"

/-- Output produced by the verbosity-dependent `fprintf` block; `a` is the
argument record at that point (after clamping). -/
def reportLines (label : String) (isStdin : Bool) (zeros : Nat) (a : Arguments) :
    List (Chan × String) :=
  (if a.verbosity = 1 ∧ a.lower ≤ zeros then [(Chan.err, corruptMsg label isStdin zeros)]
   else [])
    ++ (if 2 ≤ a.verbosity then
          (if zeros < a.lower then [(Chan.out, okMsg label isStdin zeros)]
           else [(Chan.err, corruptMsg label isStdin zeros)])
        else [])

/-- Processing of one successfully opened source (the body shared by the
`ARGP_KEY_ARG` success branch and `ARGP_KEY_NO_ARGS`): count zero-bytes,
clamp `lower`, update `retcode`, emit the verbosity-dependent lines. -/
def processSource (label : String) (isStdin : Bool) (content : List Nat)
    (a : Arguments) : Arguments × List (Chan × String) :=
  (bumpRetcode ((countZB content a.upper).1) (clampLower a),
   reportLines label isStdin ((countZB content a.upper).1) (clampLower a))

/-- Is the character one of the C `isspace` characters? -/
def isSpaceChar (c : Char) : Bool :=
  c == ' ' || c == '\t' || c == '\n' || c == '\x0b' || c == '\x0c' || c == '\r'

/-- Value of a hexadecimal digit character, if it is one. -/
def hexVal (c : Char) : Option Nat :=
  if '0' ≤ c ∧ c ≤ '9' then some (c.toNat - '0'.toNat)
  else if 'a' ≤ c ∧ c ≤ 'f' then some (c.toNat - 'a'.toNat + 10)
  else if 'A' ≤ c ∧ c ≤ 'F' then some (c.toNat - 'A'.toNat + 10)
  else none

/-- Is `c` a digit of the given base (bases 8, 10, 16)? -/
def isBaseDigit (base : Nat) (c : Char) : Bool :=
  match hexVal c with
  | some d => decide (d < base)
  | none => false

/-- Numeric value of a digit string in the given base. -/
def digitsValue (base : Nat) (ds : List Char) : Nat :=
  ds.foldl (fun acc c => acc * base + ((hexVal c).getD 0)) 0

/-- Length of the optional sign prefix recognised by `strtoul`. -/
def signLenF (r : List Char) : Nat :=
  match r with
  | c :: _ => if c == '-' || c == '+' then 1 else 0
  | [] => 0

/-- Did `strtoul` see a minus sign? -/
def negF (r : List Char) : Bool :=
  match r with
  | c :: _ => c == '-'
  | [] => false

/-- Does the string (after sign) start with a hexadecimal `0x`/`0X` prefix
followed by a hex digit?  (`strtoul` with base 0 only consumes the prefix
in that case.) -/
def hexPrefF (r : List Char) : Bool :=
  match r with
  | c0 :: c1 :: c2 :: _ => c0 == '0' && (c1 == 'x' || c1 == 'X') && (hexVal c2).isSome
  | _ => false

/-- Base chosen by `strtoul(_, _, 0)`: 16 after a `0x` prefix, 8 after a
leading `0`, otherwise 10. -/
def baseF (r : List Char) : Nat :=
  if hexPrefF r then 16
  else match r with
    | '0' :: _ => 8
    | _ => 10

/-- Length of the consumed `0x` prefix, if any. -/
def prefLenF (r : List Char) : Nat :=
  if hexPrefF r then 2 else 0

/-- Length of the leading whitespace skipped by `strtoul`. -/
def wsLenF (s : List Char) : Nat :=
  (s.takeWhile isSpaceChar).length

/-- The string after the skipped whitespace. -/
def r1F (s : List Char) : List Char :=
  s.drop (wsLenF s)

/-- The string after whitespace and the optional sign. -/
def r2F (s : List Char) : List Char :=
  (r1F s).drop (signLenF (r1F s))

/-- The string after whitespace, sign and any consumed `0x` prefix. -/
def r3F (s : List Char) : List Char :=
  (r2F s).drop (prefLenF (r2F s))

/-- The run of digits of the chosen base that `strtoul` converts. -/
def dsF (s : List Char) : List Char :=
  (r3F s).takeWhile (isBaseDigit (baseF (r2F s)))

/-- Converted value of the digit run: when the magnitude overflows an
`unsigned long`, glibc returns `ULONG_MAX` without negating (the program
ignores `errno`, so that clamped value is what it sees); otherwise a
minus sign negates the magnitude modulo 2^64. -/
def valF (s : List Char) : Nat :=
  if ULONG_MAX < digitsValue (baseF (r2F s)) (dsF s) then ULONG_MAX
  else if negF (r1F s) then (2 ^ 64 - digitsValue (baseF (r2F s)) (dsF s)) % 2 ^ 64
  else digitsValue (baseF (r2F s)) (dsF s)

/-- `strtoul(s, &tail, 0)` on a NUL-free argument string: skips leading
whitespace, accepts an optional sign, determines the base from a `0`/`0x`
prefix, and converts the digit run.  Returns `(value, tail - s)`, i.e.
the value and the number of characters consumed; `(0, 0)` when no
conversion is performed. -/
def strtoul0 (s : List Char) : Nat × Nat :=
  if (dsF s).length = 0 then (0, 0)
  else
    (valF s, wsLenF s + signLenF (r1F s) + prefLenF (r2F s) + (dsF s).length)

/-- The `'%s' is not a non-negative integer` diagnostic, naming the
offending command-line argument `argv[state->next-1]`. -/
def invalidMsg (raw : String) : String :=
  "\x27" ++ raw ++ "\x27 is not a non-negative integer\n"

/-- Option tokens delivered to `parse_opt` before positional arguments
(argp permutes options in front of positional arguments by default).
`raw` is the argv entry the diagnostic would name. -/
inductive OptTok where
  | verbose
  | upperOpt (val : String) (raw : String)
  | lowerOpt (val : String) (raw : String)
deriving DecidableEq

/-- A positional file argument: either it opens with the given byte
content, or `fopen` fails with the given `strerror(errno)` text. -/
inductive FileArg where
  | ok (name : String) (content : List Nat)
  | openFail (name : String) (errmsg : String)
deriving DecidableEq

/-- Option-parsing phase: the `'v'`, `'u'` and `'l'` cases of `parse_opt`.
A value whose `strtoul` tail is not at the end of the string makes the
handler print the diagnostic and return `EINVAL`, aborting parsing. -/
def runOpts (a : Arguments) : List OptTok → Except (List (Chan × String)) Arguments
  | [] => Except.ok a
  | OptTok.verbose :: ts =>
      runOpts (if a.verbosity < INT_MAX then { a with verbosity := a.verbosity + 1 } else a) ts
  | OptTok.upperOpt v raw :: ts =>
      if (strtoul0 v.toList).2 = v.toList.length then
        runOpts { a with upper := (strtoul0 v.toList).1 } ts
      else Except.error [(Chan.err, invalidMsg raw)]
  | OptTok.lowerOpt v raw :: ts =>
      if (strtoul0 v.toList).2 = v.toList.length then
        runOpts { a with lower := (strtoul0 v.toList).1 } ts
      else Except.error [(Chan.err, invalidMsg raw)]

/-- The `ARGP_KEY_ARG` case: open the file and process it, or report the
open failure to stderr and continue (not a parse error). -/
def processFileArg (a : Arguments) : FileArg → Arguments × List (Chan × String)
  | FileArg.ok name content => processSource name false content a
  | FileArg.openFail name errmsg => (a, [(Chan.err, name ++ ": " ++ errmsg ++ "\n")])

/-- Process the positional arguments left to right, threading the
argument record and concatenating the output. -/
def runFiles (a : Arguments) : List FileArg → Arguments × List (Chan × String)
  | [] => (a, [])
  | f :: fs =>
      ((runFiles (processFileArg a f).1 fs).1,
       (processFileArg a f).2 ++ (runFiles (processFileArg a f).1 fs).2)

/-- Result of a whole invocation: either argument parsing aborted with an
error (diagnostics printed, no further sources processed — but `main`
still returns `retcode`), or parsing completed and `main` returned
`retcode`. -/
inductive RunResult where
  | parseError (retcode : Nat) (out : List (Chan × String))
  | normal (retcode : Nat) (out : List (Chan × String))
deriving DecidableEq

/-- Process exit status of a run.  A parser callback returning `EINVAL`
does not make argp exit: `argp_parse` returns the error to `main`
(line 217), which ignores it and returns `arguments.retcode` in every
case — so even an aborted parse exits with the `retcode` accumulated so
far. -/
def exitCode : RunResult → Nat
  | RunResult.parseError r _ => r
  | RunResult.normal r _ => r

/-- A whole invocation: defaults from `ARGP_KEY_INIT`, then the option
tokens, then either the positional file arguments or (when there are
none, the `ARGP_KEY_NO_ARGS` case) standard input.  On an option error
argp stops parsing, delivers `ARGP_KEY_ERROR` (printing the termination
notice), and `argp_parse` returns before any positional argument is
processed; `retcode` still holds its initial value 0, because the option
handlers never touch it. -/
def runProgram (opts : List OptTok) (files : List FileArg) (stdinContent : List Nat) :
    RunResult :=
  match runOpts argInit opts with
  | Except.error out =>
      RunResult.parseError argInit.retcode
        (out ++ [(Chan.err, "Argument parsing has been terminated due to an error!\n")])
  | Except.ok a =>
      match files with
      | [] => RunResult.normal (processSource "" true stdinContent a).1.retcode
                (processSource "" true stdinContent a).2
      | f :: fs => RunResult.normal (runFiles a (f :: fs)).1.retcode
                     (runFiles a (f :: fs)).2

/-- A second definition following the spec text (section 6): the number of
sources classified as corrupted, i.e. whose zero-byte count is at least
the effective lower bound after clamping, capped at `INT_MAX`.  Used to
compare the specified exit code with the implemented one. -/
def specFlaggedCount (upper lower : Nat) (sources : List (List Nat)) : Nat :=
  min INT_MAX
    (sources.countP
      (fun s =>
        decide ((if upper < lower ∧ upper ≠ 0 then upper else lower) ≤ (countZB s upper).1)))

/-- A second definition following the spec text (section 6): a
syntactically valid non-negative integer literal under decimal/octal/hex
conventions — a nonempty digit string, or a `0x`/`0X` prefix followed by
hex digits; no sign, no whitespace. -/
def specNonNegLiteral (s : String) : Bool :=
  (!s.toList.isEmpty && s.toList.all Char.isDigit)
    || (match s.toList with
        | '0' :: x :: ds =>
            (x == 'x' || x == 'X') && !ds.isEmpty && ds.all (fun c => (hexVal c).isSome)
        | _ => false)

/-- The length of a `takeWhile` is at most the length of the list. -/
theorem takeWhileLenLe {α : Type} {p : α → Bool} :
    ∀ l : List α, (l.takeWhile p).length ≤ l.length
  | [] => by simp
  | c :: cs => by
      rw [List.takeWhile_cons]
      split
      · simpa using takeWhileLenLe cs
      · simp

/-- The sign prefix is no longer than the string. -/
theorem signLenF_le (r : List Char) : signLenF r ≤ r.length := by
  cases r with
  | nil => simp [signLenF]
  | cons c cs =>
      simp only [signLenF]
      split <;> simp

/-- The consumed `0x` prefix is no longer than the string. -/
theorem prefLenF_le (r : List Char) : prefLenF r ≤ r.length := by
  unfold prefLenF
  split
  · rename_i hp
    unfold hexPrefF at hp
    cases r with
    | nil => simp at hp
    | cons c0 t =>
        cases t with
        | nil => simp at hp
        | cons c1 t2 =>
            cases t2 with
            | nil => simp at hp
            | cons c2 t3 => simp
  · exact Nat.zero_le _

/-- `strtoul` never consumes more characters than the string has. -/
theorem strtoul0_consumed_le (s : List Char) : (strtoul0 s).2 ≤ s.length := by
  unfold strtoul0
  split
  · exact Nat.zero_le _
  · have h1 : wsLenF s ≤ s.length := takeWhileLenLe s
    have h2 : (r1F s).length = s.length - wsLenF s := List.length_drop _ _
    have h3 : signLenF (r1F s) ≤ (r1F s).length := signLenF_le _
    have h4 : (r2F s).length = (r1F s).length - signLenF (r1F s) := List.length_drop _ _
    have h5 : prefLenF (r2F s) ≤ (r2F s).length := prefLenF_le _
    have h6 : (r3F s).length = (r2F s).length - prefLenF (r2F s) := List.length_drop _ _
    have h7 : (dsF s).length ≤ (r3F s).length := takeWhileLenLe _
    simp only []
    omega

/-- `clampLower` only touches the `lower` field. -/
theorem clampLower_fields (a : Arguments) :
    (clampLower a).verbosity = a.verbosity ∧ (clampLower a).upper = a.upper
      ∧ (clampLower a).retcode = a.retcode
      ∧ (clampLower a).lower = (if a.upper < a.lower ∧ a.upper ≠ 0 then a.upper else a.lower) := by
  unfold clampLower
  split <;> simp_all

/-- `bumpRetcode` only touches the `retcode` field. -/
theorem bumpRetcode_fields (z : Nat) (a : Arguments) :
    (bumpRetcode z a).verbosity = a.verbosity ∧ (bumpRetcode z a).upper = a.upper
      ∧ (bumpRetcode z a).lower = a.lower
      ∧ (bumpRetcode z a).retcode
          = (if z ≠ 0 ∧ a.retcode < INT_MAX then a.retcode + 1 else a.retcode) := by
  unfold bumpRetcode
  split <;> simp_all

/-- Invariant of the `countZB` loop: the count never exceeds `upper`, and
at most one byte past the shortest prefix holding the missing
`upper - zeros` zeros is consumed. -/
theorem countZBrun_bounds (s : List Nat) :
    ∀ zeros upper : Nat, zeros ≤ upper →
      (countZBrun s upper zeros).1 ≤ upper ∧
        (countZBrun s upper zeros).2 ≤ prefixToKZeros (upper - zeros) s + 1 := by
  induction s with
  | nil =>
      intro zeros upper h
      simp only [countZBrun]
      exact ⟨h, Nat.zero_le _⟩
  | cons b rest ih =>
      intro zeros upper h
      simp only [countZBrun]
      by_cases hb : b = 255
      · rw [if_pos hb]
        exact ⟨h, by omega⟩
      · rw [if_neg hb]
        by_cases hz : zeros < upper ∧ zeros < ULONG_MAX
        · rw [if_pos hz]
          have hk : ¬ (upper - zeros = 0) := by omega
          by_cases h0 : b = 0
          · rw [if_pos h0]
            have ih1 := ih (zeros + 1) upper hz.1
            have hpre : prefixToKZeros (upper - zeros) (b :: rest)
                = 1 + prefixToKZeros (upper - (zeros + 1)) rest := by
              simp only [prefixToKZeros, if_neg hk, if_pos h0]
              have hsub : upper - zeros - 1 = upper - (zeros + 1) := by omega
              rw [hsub]
            refine ⟨ih1.1, ?_⟩
            rw [hpre]
            have := ih1.2
            omega
          · rw [if_neg h0]
            have ih1 := ih zeros upper (Nat.le_of_lt hz.1)
            have hpre : prefixToKZeros (upper - zeros) (b :: rest)
                = 1 + prefixToKZeros (upper - zeros) rest := by
              simp only [prefixToKZeros, if_neg hk, if_neg h0]
            refine ⟨ih1.1, ?_⟩
            rw [hpre]
            have := ih1.2
            omega
        · rw [if_neg hz]
          exact ⟨h, by omega⟩

/-- C3: the claim says `count_zero_bytes(S, 0)` reads `S` to end-of-stream
and returns exactly the number of zero bytes in `S`.  The code stores the
result of `getc` in a signed `char`, so the byte 0xFF compares equal to
`EOF`: on the stream `[0xFF, 0x00]` with cap 0 the function stops after
one byte and returns 0, while the stream holds one zero byte.  (The
empty-stream part of the claim does hold.) -/
theorem countZB_ff_stops :
    (countZB [255, 0] 0).1 = 0 ∧ (countZB [255, 0] 0).2 = 1
      ∧ List.count 0 [255, 0] = 1 ∧ (countZB [] 7).1 = 0 := by
  decide

/-- C4 counterexample: with cap 1, on the stream `[0x00, 0x05]` the count
reaches the cap after the first byte (the shortest prefix with one zero
has length 1), yet two bytes are consumed: the loop calls `getc` again
before testing `zeros < upper`, so the byte past the point where
`count == cap` is read, contrary to the claim. -/
theorem countZB_extra_read :
    (countZB [0, 5] 1).1 = 1 ∧ (countZB [0, 5] 1).2 = 2
      ∧ prefixToKZeros 1 [0, 5] = 1 := by
  decide

/-- C4 (amended): for every stream `S` and cap `C > 0`, the returned count
is at most `C`, and at most one byte past the point where the count
reaches `C` is consumed — reading stops on the first `getc` after the cap
is hit, not before it. -/
theorem countZB_cap_bounds (s : List Nat) (C : Nat) (h : 0 < C) :
    (countZB s C).1 ≤ C ∧ (countZB s C).2 ≤ prefixToKZeros C s + 1 := by
  have hC : ¬ (C = 0) := by omega
  have hbase := countZBrun_bounds s 0 C (Nat.zero_le C)
  simpa [countZB, hC] using hbase

/-- C4 witness: the amended bound instantiated on the counterexample
stream. -/
theorem countZB_cap_bounds_inst :
    0 < 1 ∧ ((countZB [0, 5] 1).1 ≤ 1 ∧ (countZB [0, 5] 1).2 ≤ prefixToKZeros 1 [0, 5] + 1) :=
  ⟨by decide, countZB_cap_bounds [0, 5] 1 (by decide)⟩

/-- C1: the claim (and the program help text) say the exit code is the
number of sources whose zero-byte count is at least the effective lower
bound.  The code increments `retcode` whenever `zeros > 0`, ignoring
`lower`: with `-l 5` and one file holding a single zero byte, the run
exits with code 1 although the source counts 1 < 5 zero bytes and the
spec-side tally of corrupted sources is 0. -/
theorem retcode_vs_spec_flagged :
    runProgram [OptTok.lowerOpt "5" "-l"] [FileArg.ok "f" [0]] [] = RunResult.normal 1 []
      ∧ specFlaggedCount 0 5 [[0]] = 0 ∧ (countZB [0] 0).1 = 1 := by
  decide

/-- C2: in the per-source classification, `retcode` is incremented exactly
when the counted zeros are positive and `retcode` is below `INT_MAX`, and
the update is independent of the `lower` threshold. -/
theorem retcode_increment_iff (label : String) (b : Bool) (content : List Nat)
    (a : Arguments) (l2 : Nat) :
    ((processSource label b content a).1.retcode = a.retcode + 1
        ↔ 0 < (countZB content a.upper).1 ∧ a.retcode < INT_MAX)
      ∧ (processSource label b content { a with lower := l2 }).1.retcode
          = (processSource label b content a).1.retcode := by
  constructor
  · simp only [processSource, bumpRetcode, clampLower]
    split_ifs <;> simp_all <;> omega
  · simp only [processSource, bumpRetcode, clampLower]
    split_ifs <;> simp_all

/-- C2 witness: a file with one zero byte and `retcode = 0` increments the
return code; changing `lower` does not affect it. -/
theorem retcode_increment_iff_inst :
    ((processSource "f" false [0] ⟨0, 0, 1, 0⟩).1.retcode = 0 + 1
        ↔ 0 < (countZB [0] 0).1 ∧ 0 < INT_MAX)
      ∧ (processSource "f" false [0] ⟨0, 0, 9, 0⟩).1.retcode
          = (processSource "f" false [0] ⟨0, 0, 1, 0⟩).1.retcode :=
  retcode_increment_iff "f" false [0] ⟨0, 0, 1, 0⟩ 9

/-- C5: the clamp `if (lower > upper && upper != 0) lower = upper` runs
before each per-source classification, so afterwards the state satisfies
`lower ≤ upper` or `upper == 0`; concretely, with `upper=5, lower=10` a
source with exactly five zero-bytes is reported corrupted (at
verbosity 1) under the clamped threshold 5. -/
theorem clamp_per_source :
    (∀ (label : String) (b : Bool) (content : List Nat) (a : Arguments),
        (processSource label b content a).1.lower
            = (if a.upper < a.lower ∧ a.upper ≠ 0 then a.upper else a.lower)
          ∧ ((processSource label b content a).1.lower ≤ (processSource label b content a).1.upper
              ∨ (processSource label b content a).1.upper = 0))
      ∧ processSource "f" false [0, 0, 0, 0, 0] ⟨1, 5, 10, 0⟩
          = (⟨1, 5, 5, 1⟩, [(Chan.err, "f: seems corrupted, 5 zero-bytes counted\n")]) := by
  constructor
  · intro label b content a
    simp only [processSource, bumpRetcode, clampLower]
    split_ifs <;> simp_all <;> omega
  · decide

/-- C6 counterexample: the claim fails in two ways.  `-5` is not a
syntactically valid non-negative integer literal, yet `--upper=-5` does
not abort: `strtoul` consumes the sign and the digits and the option is
accepted with `upper = 2^64 - 5`.  And for a value that does abort
parsing, such as `--upper=abc`, the exit status is 0, not non-zero:
`argp_parse` returns the parser's `EINVAL` to `main`, which ignores it
and returns `retcode`, still 0. -/
theorem negative_value_accepted :
    specNonNegLiteral "-5" = false
      ∧ runProgram [OptTok.upperOpt "-5" "--upper=-5"] [] [] = RunResult.normal 0 []
      ∧ (runOpts argInit [OptTok.upperOpt "-5" "--upper=-5"]).toOption
          = some { verbosity := 0, upper := ULONG_MAX - 4, lower := 1, retcode := 0 }
      ∧ exitCode (runProgram [OptTok.upperOpt "abc" "--upper=abc"] [FileArg.ok "f" [0]] [])
          = 0 := by
  decide

/-- C6 (amended): every option value that `strtoul` does not consume
entirely (e.g. `abc`) makes the program print the diagnostic and the
termination notice and abort argument parsing before any file is
processed — but the process exit status is 0, because `main` ignores the
error `argp_parse` returns and returns the still-zero `retcode`; and
values with a leading sign or whitespace, such as `-5`, are fully
consumed and accepted. -/
theorem invalid_value_aborts (v raw : String) (files : List FileArg)
    (stdinContent : List Nat) (h : (strtoul0 v.toList).2 < v.toList.length) :
    runProgram [OptTok.upperOpt v raw] files stdinContent
        = RunResult.parseError 0 [(Chan.err, invalidMsg raw),
            (Chan.err, "Argument parsing has been terminated due to an error!\n")]
      ∧ runProgram [OptTok.lowerOpt v raw] files stdinContent
          = RunResult.parseError 0 [(Chan.err, invalidMsg raw),
              (Chan.err, "Argument parsing has been terminated due to an error!\n")]
      ∧ exitCode (runProgram [OptTok.upperOpt v raw] files stdinContent) = 0 := by
  have hne : ¬ ((strtoul0 v.toList).2 = v.toList.length) := by omega
  have hne2 : ¬ ((strtoul0 v.data).2 = v.length) := hne
  refine ⟨?_, ?_, ?_⟩ <;>
    simp [runProgram, runOpts, hne2, exitCode, argInit]

/-- C6 witness: `--upper=abc` aborts parsing with the diagnostics, no
file output whatever files were on the command line, and exit status 0. -/
theorem invalid_value_aborts_inst :
    (strtoul0 "abc".toList).2 < "abc".toList.length
      ∧ runProgram [OptTok.upperOpt "abc" "--upper=abc"] [FileArg.ok "f" [0]] []
          = RunResult.parseError 0 [(Chan.err, invalidMsg "--upper=abc"),
              (Chan.err, "Argument parsing has been terminated due to an error!\n")]
      ∧ exitCode (runProgram [OptTok.upperOpt "abc" "--upper=abc"] [FileArg.ok "f" [0]] [])
          = 0 :=
  ⟨by decide,
   (invalid_value_aborts "abc" "--upper=abc" [FileArg.ok "f" [0]] [] (by decide)).1,
   (invalid_value_aborts "abc" "--upper=abc" [FileArg.ok "f" [0]] [] (by decide)).2.2⟩

/-- C7: parsing an upper/lower option value fails (with the diagnostic
naming the offending argv entry, aborting parsing) exactly when `strtoul`
consumes less than the whole string — consumption never exceeds the
string — and otherwise the corresponding field is set to the parsed
value. -/
theorem limit_parse_iff (arg raw : String) (a : Arguments) (ts : List OptTok) :
    (strtoul0 arg.toList).2 ≤ arg.toList.length
      ∧ ((strtoul0 arg.toList).2 < arg.toList.length →
          runOpts a (OptTok.upperOpt arg raw :: ts) = Except.error [(Chan.err, invalidMsg raw)]
            ∧ runOpts a (OptTok.lowerOpt arg raw :: ts)
                = Except.error [(Chan.err, invalidMsg raw)])
      ∧ ((strtoul0 arg.toList).2 = arg.toList.length →
          runOpts a (OptTok.upperOpt arg raw :: ts)
              = runOpts { a with upper := (strtoul0 arg.toList).1 } ts
            ∧ runOpts a (OptTok.lowerOpt arg raw :: ts)
                = runOpts { a with lower := (strtoul0 arg.toList).1 } ts) := by
  refine ⟨strtoul0_consumed_le _, ?_, ?_⟩
  · intro h
    have hne : ¬ ((strtoul0 arg.toList).2 = arg.toList.length) := by omega
    have hne2 : ¬ ((strtoul0 arg.data).2 = arg.length) := hne
    constructor <;> simp [runOpts, hne2]
  · intro h
    have h2 : (strtoul0 arg.data).2 = arg.length := h
    constructor <;> simp [runOpts, h2]

/-- C7 witness: `5` parses fully and sets the field; `abc` fails with the
diagnostic. -/
theorem limit_parse_iff_inst :
    (strtoul0 "abc".toList).2 ≤ "abc".toList.length
      ∧ runOpts argInit [OptTok.upperOpt "abc" "-u"] = Except.error [(Chan.err, invalidMsg "-u")]
      ∧ runOpts argInit [OptTok.lowerOpt "5" "-l"]
          = runOpts { argInit with lower := (strtoul0 "5".toList).1 } [] := by
  have habc := limit_parse_iff "abc" "-u" argInit []
  have h5 := limit_parse_iff "5" "-l" argInit []
  exact ⟨habc.1, (habc.2.1 (by decide)).1, (h5.2.2 (by decide)).2⟩

/-- C8: a positional filename that fails to open is non-fatal: the
diagnostic `name: strerror` goes to the error stream, the run
configuration (including `retcode`) is unchanged, and the remaining
arguments are processed exactly as they would have been without that
source. -/
theorem open_failure_nonfatal (name errmsg : String) (a : Arguments) (fs : List FileArg) :
    processFileArg a (FileArg.openFail name errmsg)
        = (a, [(Chan.err, name ++ ": " ++ errmsg ++ "\n")])
      ∧ runFiles a (FileArg.openFail name errmsg :: fs)
          = ((runFiles a fs).1,
             (Chan.err, name ++ ": " ++ errmsg ++ "\n") :: (runFiles a fs).2) := by
  constructor
  · rfl
  · simp [runFiles, processFileArg]

/-- C9: at verbosity at least 2, each successfully scanned source emits
exactly one line — to stdout when the zero count is below the clamped
lower threshold, otherwise to stderr with the corruption wording. -/
theorem verbosity_two_single_line (label : String) (b : Bool) (content : List Nat)
    (a : Arguments) (h : 2 ≤ a.verbosity) :
    (processSource label b content a).2
        = (if (countZB content a.upper).1 < (clampLower a).lower
           then [(Chan.out, okMsg label b ((countZB content a.upper).1))]
           else [(Chan.err, corruptMsg label b ((countZB content a.upper).1))]) := by
  have hfv := (clampLower_fields a).1
  have hv1 : ¬ ((clampLower a).verbosity = 1) := by omega
  have hv2 : 2 ≤ (clampLower a).verbosity := by omega
  simp only [processSource, reportLines, hv1, false_and, if_false, if_pos hv2,
    List.nil_append]

/-- C9 witness: with verbosity 2 and default `lower=1`, a file with no
zero bytes yields the stdout line and a file with three zero bytes yields
the stderr corruption line. -/
theorem verbosity_two_single_line_inst :
    (processSource "f" false [] ⟨2, 0, 1, 0⟩).2 = [(Chan.out, "f: 0 zero-bytes counted\n")]
      ∧ (processSource "g" false [0, 0, 0] ⟨2, 0, 1, 0⟩).2
          = [(Chan.err, "g: seems corrupted, 3 zero-bytes counted\n")] := by
  have h1 := verbosity_two_single_line "f" false [] ⟨2, 0, 1, 0⟩ (by decide)
  have h2 := verbosity_two_single_line "g" false [0, 0, 0] ⟨2, 0, 1, 0⟩ (by decide)
  exact ⟨h1.trans (by decide), h2.trans (by decide)⟩

/-- C10: with `lower = 0`, a successfully opened source counting zero
zero-bytes is reported as corrupted at any verbosity at least 1 (since
`0 ≥ 0`), yet `retcode` — and hence the exit code — is not incremented
for it. -/
theorem lower_zero_corrupt_report (label : String) (b : Bool) (content : List Nat)
    (a : Arguments) (hl : a.lower = 0) (hv : 1 ≤ a.verbosity)
    (hz : (countZB content a.upper).1 = 0) :
    (processSource label b content a).2 = [(Chan.err, corruptMsg label b 0)]
      ∧ (processSource label b content a).1.retcode = a.retcode := by
  have hcl : clampLower a = a := by
    unfold clampLower
    rw [if_neg]
    intro hc
    omega
  constructor
  · by_cases hv1 : a.verbosity = 1
    · simp [processSource, reportLines, hcl, hz, hl, hv1]
    · have hv2 : 2 ≤ a.verbosity := by omega
      simp [processSource, reportLines, hcl, hz, hl, hv1, hv2]
  · simp [processSource, bumpRetcode, hcl, hz]

/-- C10 witness: at verbosity 1 with `lower = 0`, an empty source is
reported corrupted while `retcode` stays at its previous value 7. -/
theorem lower_zero_corrupt_report_inst :
    (processSource "h" false [] ⟨1, 0, 0, 7⟩).2 = [(Chan.err, corruptMsg "h" false 0)]
      ∧ (processSource "h" false [] ⟨1, 0, 0, 7⟩).1.retcode = 7 :=
  lower_zero_corrupt_report "h" false [] ⟨1, 0, 0, 7⟩ (by decide) (by decide) (by decide)

end Zcount
